import Mathlib

/-!
Verification of the plenum consensus core (replica three-phase commit,
view changer, pool parameters) against its Python sources.  Each Python
function referenced by a claim is embedded as an executable Lean
definition operating on an explicit state record; dynamic failures
(exceptions) are made explicit with `Except`.
-/

namespace Plenum

/-- A 3PC key is the pair (viewNo, ppSeqNo). -/
abbrev Key3PC := Nat × Nat

/-- Keys of a Python `Counter` in order of first occurrence (Python dicts,
hence `Counter`, preserve insertion order). -/
def counterKeys {α : Type} [DecidableEq α] (l : List α) : List α :=
  l.foldl (fun acc x => if x ∈ acc then acc else acc ++ [x]) []

/-- `plenum/common/util.py` lines 56-63, `mostCommonElement`:
`return Counter(elements).most_common(1)[0][0]`.  `most_common` orders by
decreasing count with ties broken by first insertion, so the result is the
first-inserted element of maximal count; on an empty collection the `[0]`
indexing raises `IndexError`, modelled as `none`.  Note the function
returns ONLY the element, not an (element, count) pair. -/
def mostCommonElement {α : Type} [DecidableEq α] (l : List α) : Option α :=
  (counterKeys l).foldl
    (fun best k =>
      match best with
      | none => some k
      | some b => if l.count b < l.count k then some k else best)
    none

/-- Python runtime exceptions raised by the embedded code. -/
inductive PyErr
  | valueError
  | typeError
  | indexError
  deriving DecidableEq, Repr

/-- The per-ledger summary carried by VIEW_CHANGE_DONE, after the caller's
`tuple(tuple(i) for i in info)` conversion: a tuple of tuples of numbers. -/
abbrev LedgerInfo := List (List Int)

/-- The slice of `ViewChanger` state read by
`get_sufficient_same_view_change_done_messages`
(`plenum/server/view_change/view_changer.py`): `_view_change_done` maps a
sender name to a (new primary name, ledger info) pair;
`_accepted_view_change_done_message` caches an earlier result; `quorum` is
the property at lines 90-98 (its value is irrelevant below because the
comparison against it is never reached). -/
structure ViewChangerVC where
  view_change_done : List (String × (String × LedgerInfo))
  accepted_view_change_done_message : Option (String × LedgerInfo)
  quorum : Nat

/-- `view_changer.py` lines 556-575,
`get_sufficient_same_view_change_done_messages`.  The line
`(new_primary, ledger_info), vote_count = mostCommonElement(votes)`
unpacks the single (name, info) pair returned by `mostCommonElement`:
Python binds the name string to the inner pair (raising `ValueError`
unless the name has exactly two characters) and binds `vote_count` to the
ledger-info tuple, so the subsequent `vote_count >= self.quorum` compares
a tuple with an int and raises `TypeError`. -/
def get_sufficient_same_view_change_done_messages (st : ViewChangerVC) :
    Except PyErr (Option (String × LedgerInfo)) :=
  match st.accepted_view_change_done_message with
  | some a => .ok (some a)
  | none =>
    match st.view_change_done with
    | [] => .ok none
    | _ =>
      let votes := st.view_change_done.map (fun kv => kv.2)
      match mostCommonElement votes with
      | none => .error .indexError
      | some (nm, _info) =>
        if nm.length = 2 then .error .typeError else .error .valueError

/-- A PREPARE message (`plenum/common/messages/node_messages.py` shape, as
used by `replica.py`): view number, sequence number, pre-prepare time and
the digests/roots agreed with the PRE-PREPARE. -/
structure PrepareMsg where
  viewNo : Nat
  ppSeqNo : Nat
  ppTime : Nat
  digest : String
  stateRootHash : String
  txnRootHash : String
  deriving DecidableEq, Repr

/-- A PRE-PREPARE message as built by `Replica.create3PCBatch`
(`replica.py` lines 752-805): the ten positional fields. -/
structure PrePrepareMsg where
  instId : Nat
  viewNo : Nat
  ppSeqNo : Nat
  ppTime : Nat
  reqIdr : List String
  discarded : Nat
  digest : String
  ledgerId : Nat
  stateRootHash : String
  txnRootHash : String
  deriving DecidableEq, Repr

/-- Association-list lookup (a Python dict read `d[k]` / `d.get(k)`). -/
def alookup {α β : Type} [DecidableEq α] (l : List (α × β)) (k : α) :
    Option β :=
  match l with
  | [] => none
  | (k', v) :: rest => if k' = k then some v else alookup rest k

/-- The slice of `Replica` state read by
`_process_stashed_pre_prepare_for_time_if_possible` (`replica.py` lines
2435-2461): the Byzantine bound `f` (`self.quorums.f`), the PREPAREs
waiting for a PRE-PREPARE, and the PRE-PREPAREs stashed for incorrect
time (key -> (message, sender, done)). -/
structure TimeRescueState where
  f : Nat
  preparesWaitingForPrePrepare : List (Key3PC × List (PrepareMsg × String))
  pre_prepares_stashed_for_incorrect_time :
    List (Key3PC × (PrePrepareMsg × String × Bool))

/-- `replica.py` lines 2435-2461,
`_process_stashed_pre_prepare_for_time_if_possible`.  When more than `f`
PREPAREs wait for the PRE-PREPARE the code executes
`most_common_time, freq = mostCommonElement(times)`, which unpacks the
single int returned by `mostCommonElement` into two names and raises
`TypeError`; the timestamp-quorum check and the rescue of the stashed
PRE-PREPARE below it are unreachable.  With at most `f` waiting PREPAREs
the function returns `False` and the stash is untouched. -/
def process_stashed_pre_prepare_for_time_if_possible
    (st : TimeRescueState) (key : Key3PC) : Except PyErr Bool :=
  let waiting := (alookup st.preparesWaitingForPrePrepare key).getD []
  if st.f < waiting.length then
    match mostCommonElement (waiting.map (fun pr => pr.1.ppTime)) with
    | some _ => .error .typeError
    | none => .error .indexError
  else .ok false

/-- `plenum/common/util.py` lines 170-181, `getMaxFailures`:
`floor((nodeCount - 1) / 3)` when `nodeCount >= 4`, else `0`. -/
def getMaxFailures (nodeCount : Nat) : Nat :=
  if 4 ≤ nodeCount then (nodeCount - 1) / 3 else 0

/-- The pool parameters derived by `Node.setPoolParams` (`node.py` lines
669-684). -/
structure PoolParams where
  f : Nat
  requiredNumberOfInstances : Nat
  minimumNodes : Nat
  deriving DecidableEq, Repr

/-- `plenum/server/node.py` lines 669-684, `setPoolParams`:
`f = getMaxFailures(totalNodes)`,
`requiredNumberOfInstances = f + 1`, `minimumNodes = 2 * f + 1`. -/
def setPoolParams (totalNodes : Nat) : PoolParams :=
  let fv := getMaxFailures totalNodes
  { f := fv
    requiredNumberOfInstances := fv + 1
    minimumNodes := 2 * fv + 1 }

/-- Modelled from the spec: `compare_3PC_keys` is imported by `replica.py`
from `plenum.common.util` but is absent from the sources.  The spec fixes
"3PC-Key = (ViewNo, PpSeqNo). Totally ordered lexicographically", and the
callers read a positive result as "the second key is greater" (e.g.
`has_already_ordered` treats `compare_3PC_keys(key, last_ordered) >= 0`
as `key ≤ last_ordered`). -/
def compare_3PC_keys (k1 k2 : Key3PC) : Int :=
  if k1.1 = k2.1 then (k2.2 : Int) - (k1.2 : Int)
  else (k2.1 : Int) - (k1.1 : Int)

/-- Lexicographic order on 3PC keys (the spec's total order). -/
def keyLe (a b : Key3PC) : Prop :=
  a.1 < b.1 ∨ (a.1 = b.1 ∧ a.2 ≤ b.2)

instance (a b : Key3PC) : Decidable (keyLe a b) := by
  unfold keyLe; infer_instance

/-- Strict lexicographic order on 3PC keys. -/
def keyLt (a b : Key3PC) : Prop :=
  a.1 < b.1 ∨ (a.1 = b.1 ∧ a.2 < b.2)

instance (a b : Key3PC) : Decidable (keyLt a b) := by
  unfold keyLt; infer_instance

/-- The per-interval checkpoint state `CheckpointState(seqNo, digests,
digest, receivedDigests, isStable)` as constructed and updated by
`replica.py` (`addToCheckpoint`, `processCheckpoint`,
`markCheckPointStable`); the class itself lives outside the given
sources. -/
structure CheckpointState where
  seqNo : Nat
  digests : List String
  digest : Option String
  receivedDigests : List (String × String)
  isStable : Bool
  deriving DecidableEq, Repr

/-- A three-phase message as seen by `dispatchThreePhaseMsg`: every
PRE-PREPARE, PREPARE and COMMIT carries `viewNo` and `ppSeqNo`. -/
structure ThreePhaseMsg where
  viewNo : Nat
  ppSeqNo : Nat
  deriving DecidableEq, Repr

/-- The slice of `Replica` state used by the watermark logic and
`dispatchThreePhaseMsg` (`replica.py`): `checkpoints` is kept in
ascending order of interval end (`SortedDict(lambda k: k[1])`). -/
structure DispatchState where
  config_LOG_SIZE : Nat
  viewNo : Nat
  h : Nat
  H : Nat
  checkpoints : List ((Nat × Nat) × CheckpointState)
  last_ordered_3pc : Key3PC
  ordered : List Key3PC
  last_prepared_before_view_change : Option Key3PC
  stashingWhileOutsideWaterMarks : List (ThreePhaseMsg × String)
  deriving DecidableEq, Repr

/-- `replica.py` lines 357-364, the setter of the `h` property:
`self._h = n; self.H = self._h + self.config.LOG_SIZE`. -/
def set_h (st : DispatchState) (n : Nat) : DispatchState :=
  { st with h := n, H := n + st.config_LOG_SIZE }

/-- `replica.py`, `firstCheckPoint`: `checkpoints.peekitem(0)`, i.e. the
entry with the smallest interval end, `None` when empty. -/
def firstCheckPoint (st : DispatchState) :
    Option ((Nat × Nat) × CheckpointState) :=
  st.checkpoints.head?

/-- `replica.py` lines 2065-2076, `isPpSeqNoStable`: true when the first
checkpoint is stable and its `seqNo` is at least `ppSeqNo`. -/
def isPpSeqNoStable (st : DispatchState) (ppSeqNo : Nat) : Bool :=
  match firstCheckPoint st with
  | none => false
  | some (_, ckState) => ckState.isStable && ppSeqNo ≤ ckState.seqNo

/-- `replica.py` lines 2078-2080, `has_already_ordered`:
`compare_3PC_keys((view_no, pp_seq_no), self.last_ordered_3pc) >= 0`. -/
def has_already_ordered (st : DispatchState) (view_no pp_seq_no : Nat) :
    Bool :=
  decide (0 ≤ compare_3PC_keys (view_no, pp_seq_no) st.last_ordered_3pc)

/-- `replica.py`, `isPpSeqNoBetweenWaterMarks`: `h < ppSeqNo <= H`. -/
def isPpSeqNoBetweenWaterMarks (st : DispatchState) (ppSeqNo : Nat) :
    Bool :=
  decide (st.h < ppSeqNo ∧ ppSeqNo ≤ st.H)

/-- `replica.py` lines 2232-2247, `can_pp_seq_no_be_in_view`: raises
`PlenumValueError` when `view_no > self.viewNo`; otherwise true when the
view is current, or the view is older and the key is at least
`last_prepared_before_view_change` (a `None` value is falsy and
short-circuits the `and`). -/
def can_pp_seq_no_be_in_view (st : DispatchState)
    (view_no pp_seq_no : Nat) : Except PyErr Bool :=
  if st.viewNo < view_no then .error .valueError
  else .ok (view_no == st.viewNo ||
    (decide (view_no < st.viewNo) &&
      (match st.last_prepared_before_view_change with
       | none => false
       | some lp =>
         decide (0 ≤ compare_3PC_keys (view_no, pp_seq_no) lp))))

/-- The control-flow outcome of `dispatchThreePhaseMsg`. -/
inductive DispatchResult
  | discardedStable
  | discardedOrdered
  | handled
  | discardedOldView
  | stashed
  | raised (e : PyErr)
  deriving DecidableEq, Repr

/-- `replica.py` lines 868-892, `dispatchThreePhaseMsg`: discard when the
key is at or below the stable checkpoint, discard when already ordered,
hand to the three-phase router when inside the watermark window and the
view is plausible, otherwise stash into
`stashingWhileOutsideWaterMarks` (`stashOutsideWatermarks` appends). -/
def dispatchThreePhaseMsg (st : DispatchState) (msg : ThreePhaseMsg)
    (sender : String) : DispatchResult × DispatchState :=
  if isPpSeqNoStable st msg.ppSeqNo then (.discardedStable, st)
  else if has_already_ordered st msg.viewNo msg.ppSeqNo then
    (.discardedOrdered, st)
  else if isPpSeqNoBetweenWaterMarks st msg.ppSeqNo then
    match can_pp_seq_no_be_in_view st msg.viewNo msg.ppSeqNo with
    | .error e => (.raised e, st)
    | .ok true => (.handled, st)
    | .ok false => (.discardedOldView, st)
  else
    (.stashed,
     { st with stashingWhileOutsideWaterMarks :=
        st.stashingWhileOutsideWaterMarks ++ [(msg, sender)] })

/-- Three identical VIEW_CHANGE_DONE votes for primary "Alpha". -/
def vcVotes3 : List (String × (String × LedgerInfo)) :=
  [("Node1", ("Alpha", [[0, 10, 7]])),
   ("Node2", ("Alpha", [[0, 10, 7]])),
   ("Node3", ("Alpha", [[0, 10, 7]]))]

/-- Two PREPAREs for key (0,4) carrying the same ppTime 1500. -/
def waitingPrepares2 : List (PrepareMsg × String) :=
  [({ viewNo := 0, ppSeqNo := 4, ppTime := 1500, digest := "d",
      stateRootHash := "s", txnRootHash := "t" }, "Node2"),
   ({ viewNo := 0, ppSeqNo := 4, ppTime := 1500, digest := "d",
      stateRootHash := "s", txnRootHash := "t" }, "Node3")]

/-- A PRE-PREPARE for key (0,4) stashed for incorrect time. -/
def stashedPP04 : PrePrepareMsg :=
  { instId := 0, viewNo := 0, ppSeqNo := 4, ppTime := 9999,
    reqIdr := ["d1"], discarded := 1, digest := "bd", ledgerId := 1,
    stateRootHash := "s", txnRootHash := "t" }

/-- A dispatch state with watermarks (10, 310) and nothing ordered past
(0, 10). -/
def wmSt0 : DispatchState :=
  { config_LOG_SIZE := 300, viewNo := 0, h := 10, H := 310,
    checkpoints := [], last_ordered_3pc := (0, 10), ordered := [],
    last_prepared_before_view_change := none,
    stashingWhileOutsideWaterMarks := [] }

/-- A three-phase message far above the high watermark of `wmSt0`. -/
def wmMsg0 : ThreePhaseMsg := { viewNo := 0, ppSeqNo := 400 }

/-- A three-phase message at (0, 7): at or below `wmSt0`'s
`last_ordered_3pc` but absent from its `ordered` set. -/
def wmMsg1 : ThreePhaseMsg := { viewNo := 0, ppSeqNo := 7 }

/-- Association-list update (a Python dict write `d[k] = v`): replaces
the existing binding or appends a new one, preserving insertion order. -/
def aset {α β : Type} [DecidableEq α] (l : List (α × β)) (k : α) (v : β) :
    List (α × β) :=
  match l with
  | [] => [(k, v)]
  | (k', v') :: rest =>
    if k' = k then (k, v) :: rest else (k', v') :: aset rest k v

/-- A COMMIT message as used by `canOrder`: its 3PC coordinates. -/
structure CommitMsg where
  viewNo : Nat
  ppSeqNo : Nat
  deriving DecidableEq, Repr

/-- The slice of `Replica` state used by `canOrder` and
`all_prev_ordered` (`replica.py` lines 1561-1623).  `commitVoters`
models the `Commits` tracker (`plenum/server/models.py`, absent from the
sources): for each key the sender names that sent a COMMIT.
`commitQuorum` is `self.quorums.commit.value` (2f+1 per spec I5).
`scanScheduled` records the effect of
`startRepeating(process_stashed_out_of_order_commits, 1)`. -/
structure OrderingState where
  commitQuorum : Nat
  commitVoters : List (Key3PC × List String)
  last_ordered_3pc : Key3PC
  ordered : List Key3PC
  sentPrePrepareKeys : List Key3PC
  prePrepareKeys : List Key3PC
  prepareKeys : List Key3PC
  commitKeys : List Key3PC
  stashed_out_of_order_commits : List (Nat × List (Nat × CommitMsg))
  scanScheduled : Bool
  deriving DecidableEq, Repr

/-- Modelled from the spec: `Commits.hasQuorum` comes from
`plenum/server/models.py`, which is absent from the sources; the spec
reads it as "≥ COMMIT-quorum COMMITs are held" from distinct senders. -/
def commitsHasQuorum (st : OrderingState) (key : Key3PC) (quorum : Nat) :
    Bool :=
  decide (quorum ≤ ((alookup st.commitVoters key).getD []).dedup.length)

/-- `replica.py` lines 2078-2080 applied to the ordering state slice:
`compare_3PC_keys((view_no, pp_seq_no), self.last_ordered_3pc) >= 0`. -/
def has_already_ordered_ord (st : OrderingState)
    (view_no pp_seq_no : Nat) : Bool :=
  decide (0 ≤ compare_3PC_keys (view_no, pp_seq_no) st.last_ordered_3pc)

/-- The key set scanned by `all_prev_ordered`: the union of the sent and
received PRE-PREPARE, PREPARE and COMMIT keys. -/
def toCheckKeys (st : OrderingState) : List Key3PC :=
  (st.sentPrePrepareKeys ++ st.prePrepareKeys ++ st.prepareKeys ++
    st.commitKeys).dedup

/-- `replica.py` lines 1595-1623, `all_prev_ordered`: short-circuit true
when `last_ordered_3pc == (viewNo, ppSeqNo - 1)` (Python int
arithmetic, hence the `Int` comparison); otherwise false exactly when
some key of an earlier view, or of the same view with a lower ppSeqNo,
in the scanned union is not in `ordered`. -/
def all_prev_ordered (st : OrderingState) (c : CommitMsg) : Bool :=
  if ((st.last_ordered_3pc.1 : Int), (st.last_ordered_3pc.2 : Int)) =
      ((c.viewNo : Int), (c.ppSeqNo : Int) - 1) then true
  else if (toCheckKeys st).any (fun k =>
      (decide (k.1 < c.viewNo) ||
        (decide (k.1 = c.viewNo) && decide (k.2 < c.ppSeqNo))) &&
      decide (k ∉ st.ordered)) then false
  else true

/-- The stash write of `canOrder` (`replica.py` lines 1585-1589):
`stashed_out_of_order_commits[viewNo]` is created when absent, then
`[ppSeqNo]` is set to the COMMIT. -/
def stashOutOfOrderCommit (m : List (Nat × List (Nat × CommitMsg)))
    (c : CommitMsg) : List (Nat × List (Nat × CommitMsg)) :=
  aset m c.viewNo (aset ((alookup m c.viewNo).getD []) c.ppSeqNo c)

/-- `replica.py` lines 1561-1593, `canOrder`: no quorum, already
ordered, or (for ppSeqNo > 1) not all previous keys ordered — in the
last case the COMMIT is stashed and the periodic rescan is scheduled.
Returns the (decision, reason) pair and the updated state. -/
def canOrder (st : OrderingState) (c : CommitMsg) :
    (Bool × Option String) × OrderingState :=
  if commitsHasQuorum st (c.viewNo, c.ppSeqNo) st.commitQuorum = false then
    ((false, some "no quorum"), st)
  else if has_already_ordered_ord st c.viewNo c.ppSeqNo then
    ((false, some "already ordered"), st)
  else if 1 < c.ppSeqNo ∧ all_prev_ordered st c = false then
    ((false, some "stashing since out of order"),
     { st with
        stashed_out_of_order_commits :=
          stashOutOfOrderCommit st.stashed_out_of_order_commits c
        scanScheduled := true })
  else ((true, none), st)

/-- An ordering state with a COMMIT quorum for (0,2) and (0,1) already
ordered. -/
def ordSt0 : OrderingState :=
  { commitQuorum := 3
    commitVoters := [((0, 2), ["N1", "N2", "N3"])]
    last_ordered_3pc := (0, 1)
    ordered := [(0, 1)]
    sentPrePrepareKeys := []
    prePrepareKeys := [(0, 1), (0, 2)]
    prepareKeys := [(0, 1), (0, 2)]
    commitKeys := [(0, 1), (0, 2)]
    stashed_out_of_order_commits := []
    scanScheduled := false }

/-- A COMMIT for (0, 2). -/
def ordC0 : CommitMsg := { viewNo := 0, ppSeqNo := 2 }

/-- The slice of `Replica` state used by `checkIfCheckpointStable`,
`markCheckPointStable` and `_gc` (`replica.py` lines 1848-1880 and
1959-2002).  `checkpointQuorum` is `self.quorums.checkpoint.value`
(2f+1 per spec I5, with `is_reached(n)` read as `n ≥ value`);
`checkpoints` is kept in ascending order of interval end;
`freedReqKeys` accumulates the `requests.free` calls;
`processedStashedForNewWaterMarks` records the final
`processStashedMsgsForNewWaterMarks()` call. -/
structure GcState where
  viewNo : Nat
  config_LOG_SIZE : Nat
  checkpointQuorum : Nat
  h : Nat
  H : Nat
  checkpoints : List ((Nat × Nat) × CheckpointState)
  stashedRecvdCheckpoints : List (Nat × List ((Nat × Nat) × List String))
  sentPrePrepares : List (Key3PC × PrePrepareMsg)
  prePrepares : List (Key3PC × PrePrepareMsg)
  prepares : List (Key3PC × List String)
  commits : List (Key3PC × List String)
  batches : List (Key3PC × Nat)
  requested_pre_prepares : List (Key3PC × Nat)
  requested_prepares : List (Key3PC × Nat)
  requested_commits : List (Key3PC × Nat)
  pre_prepares_stashed_for_incorrect_time :
    List (Key3PC × (PrePrepareMsg × String × Bool))
  ordered : List Key3PC
  freedReqKeys : List String
  processedStashedForNewWaterMarks : Bool
  deriving DecidableEq, Repr

/-- The `h` setter (`replica.py` lines 357-364) on the GC state slice. -/
def gcSet_h (st : GcState) (n : Nat) : GcState :=
  { st with h := n, H := n + st.config_LOG_SIZE }

/-- The keys collected by `_gc(till3PCKey)`: keys at or below
`till3PCKey` (`compare_3PC_keys(till3PCKey, key3PC) <= 0`) holding a
sent or received PRE-PREPARE. -/
def gcKeys (st : GcState) (till : Key3PC) : List Key3PC :=
  ((st.sentPrePrepares.filter
      (fun kv => decide (compare_3PC_keys till kv.1 ≤ 0))).map (fun kv => kv.1) ++
   (st.prePrepares.filter
      (fun kv => decide (compare_3PC_keys till kv.1 ≤ 0))).map (fun kv => kv.1)).dedup

/-- The request keys freed by `_gc(till3PCKey)`: the `reqIdr` entries of
every collected PRE-PREPARE (a Python set, hence deduplicated). -/
def gcReqKeys (st : GcState) (till : Key3PC) : List String :=
  (((st.sentPrePrepares.filter
      (fun kv => decide (compare_3PC_keys till kv.1 ≤ 0))).map
        (fun kv => kv.2.reqIdr)).flatten ++
   ((st.prePrepares.filter
      (fun kv => decide (compare_3PC_keys till kv.1 ≤ 0))).map
        (fun kv => kv.2.reqIdr)).flatten).dedup

/-- Drop the listed keys from a keyed collection (`coll.pop(key, None)`
for every collected key). -/
def removeKeys {β : Type} (l : List (Key3PC × β)) (ks : List Key3PC) :
    List (Key3PC × β) :=
  l.filter (fun kv => decide (kv.1 ∉ ks))

/-- `replica.py` lines 2093-2100, `compact_ordered`: drop the leading
ordered keys whose view is below `viewNo - 1`. -/
def compact_ordered (st : GcState) : GcState :=
  { st with ordered :=
      (st.ordered.dropWhile (fun k => decide (k.1 + 1 < st.viewNo))) }

/-- `replica.py` lines 1959-2002, `_gc(till3PCKey)`: pop the collected
keys from the nine 3PC collections, free the request keys of the
collected PRE-PREPAREs, and compact `ordered` (the BLS GC is outside the
spec's scope). -/
def _gc (st : GcState) (till : Key3PC) : GcState :=
  let tpcKeys := gcKeys st till
  let reqKeys := gcReqKeys st till
  compact_ordered
    { st with
        sentPrePrepares := removeKeys st.sentPrePrepares tpcKeys
        prePrepares := removeKeys st.prePrepares tpcKeys
        prepares := removeKeys st.prepares tpcKeys
        commits := removeKeys st.commits tpcKeys
        batches := removeKeys st.batches tpcKeys
        requested_pre_prepares := removeKeys st.requested_pre_prepares tpcKeys
        requested_prepares := removeKeys st.requested_prepares tpcKeys
        requested_commits := removeKeys st.requested_commits tpcKeys
        pre_prepares_stashed_for_incorrect_time :=
          removeKeys st.pre_prepares_stashed_for_incorrect_time tpcKeys
        freedReqKeys := st.freedReqKeys ++ reqKeys }

/-- `replica.py` lines 2585-2609, `_remove_stashed_checkpoints` with a
`till_3pc_key`: drop the views below `till[0]`, and for view `till[0]`
drop the intervals ending at or below `till[1]`, removing the view entry
when it becomes empty. -/
def _remove_stashed_checkpoints (st : GcState) (till : Key3PC) : GcState :=
  { st with stashedRecvdCheckpoints :=
      (((st.stashedRecvdCheckpoints.filter
          (fun ve => decide (¬ ve.1 < till.1))).map
        (fun ve =>
          if ve.1 = till.1 then
            (ve.1, ve.2.filter (fun se => decide (¬ se.1.2 ≤ till.2)))
          else ve)).filter
        (fun ve => decide (¬ (ve.1 = till.1 ∧ ve.2 = [])))) }

/-- Split a list at the first element satisfying `p`, returning the
elements before it, the element, and the elements after it. -/
def splitAtFirst {α : Type} (p : α → Bool) :
    List α → Option (List α × α × List α)
  | [] => none
  | x :: xs =>
    if p x then some ([], x, xs)
    else
      match splitAtFirst p xs with
      | none => none
      | some (pre, hit, post) => some (x :: pre, hit, post)

/-- `replica.py` lines 1848-1870, `markCheckPointStable(seqNo)`: find
the first checkpoint interval whose end equals `seqNo` (iteration order
of the end-sorted `checkpoints` dict), mark it stable, pop every
interval before it, raise `h` to `seqNo` (the `h` setter also raises
`H`), drop stashed checkpoints up to `(viewNo, seqNo)`, garbage-collect
up to `(viewNo, seqNo)` and re-process the watermark stash.  When no
interval ends at `seqNo` the method logs and returns unchanged. -/
def markCheckPointStable (st : GcState) (seqNo : Nat) : GcState :=
  match splitAtFirst (fun sc => decide (sc.1.2 = seqNo)) st.checkpoints with
  | none => st
  | some (_previous, ((s, e), ck), post) =>
    let st1 := { st with
      checkpoints := ((s, e), { ck with isStable := true }) :: post }
    let st2 := gcSet_h st1 seqNo
    let st3 := _remove_stashed_checkpoints st2 (st.viewNo, seqNo)
    let st4 := _gc st3 (st.viewNo, seqNo)
    { st4 with processedStashedForNewWaterMarks := true }

/-- `replica.py` lines 1872-1880, `checkIfCheckpointStable(key)`: when
the received digests for `checkpoints[key]` reach the checkpoint
stability quorum, mark the checkpoint stable at its `seqNo` and return
True, else return False.  (A missing key would raise `KeyError` in
Python; callers guard the lookup.) -/
def checkIfCheckpointStable (st : GcState) (key : Nat × Nat) :
    Bool × GcState :=
  match alookup st.checkpoints key with
  | none => (false, st)
  | some ckState =>
    if st.checkpointQuorum ≤ ckState.receivedDigests.length then
      (true, markCheckPointStable st ckState.seqNo)
    else (false, st)

/-- A GC state holding a quorum-complete checkpoint (1,5) and a COMMIT
entry at (0,1) with no stored PRE-PREPARE at that key. -/
def cexGcSt : GcState :=
  { viewNo := 0
    config_LOG_SIZE := 300
    checkpointQuorum := 3
    h := 0
    H := 300
    checkpoints :=
      [((1, 5),
        { seqNo := 5, digests := [], digest := some "cd",
          receivedDigests := [("N1", "cd"), ("N2", "cd"), ("N3", "cd")],
          isStable := false })]
    stashedRecvdCheckpoints := []
    sentPrePrepares := []
    prePrepares := []
    prepares := []
    commits := [((0, 1), ["N1", "N2", "N3"])]
    batches := []
    requested_pre_prepares := []
    requested_prepares := []
    requested_commits := []
    pre_prepares_stashed_for_incorrect_time := []
    ordered := []
    freedReqKeys := []
    processedStashedForNewWaterMarks := false }

/-- A quorum-complete checkpoint state for interval (1,5). -/
def ckW : CheckpointState :=
  { seqNo := 5, digests := [], digest := some "cd",
    receivedDigests := [("N1", "cd"), ("N2", "cd"), ("N3", "cd")],
    isStable := false }

/-- A sent PRE-PREPARE at key (0,3) carrying two request digests. -/
def ppW : PrePrepareMsg :=
  { instId := 0, viewNo := 0, ppSeqNo := 3, ppTime := 100,
    reqIdr := ["dA", "dB"], discarded := 2, digest := "bd",
    ledgerId := 1, stateRootHash := "sr", txnRootHash := "tr" }

/-- A GC state where the checkpoint (1,5) has a stability quorum and the
key (0,3) holds a sent PRE-PREPARE plus PREPARE/COMMIT/batch entries. -/
def gcStW : GcState :=
  { viewNo := 0
    config_LOG_SIZE := 300
    checkpointQuorum := 3
    h := 0
    H := 300
    checkpoints := [((1, 5), ckW)]
    stashedRecvdCheckpoints := []
    sentPrePrepares := [((0, 3), ppW)]
    prePrepares := []
    prepares := [((0, 3), ["N1"])]
    commits := [((0, 3), ["N1", "N2", "N3"])]
    batches := [((0, 3), 7)]
    requested_pre_prepares := []
    requested_prepares := []
    requested_commits := []
    pre_prepares_stashed_for_incorrect_time := []
    ordered := [(0, 3)]
    freedReqKeys := []
    processedStashedForNewWaterMarks := false }

/-- A finalised request as consumed during batch creation: its content
digest and whether the master's dynamic validation
(`doDynamicValidation` / `applyReq` in `processReqDuringBatch`,
`replica.py` lines 740-751) succeeds on it.  A failure produces a
Reject and places the request among the invalid ones; on a non-master
replica no validation runs, so every request counts as valid. -/
structure RequestRec where
  digest : String
  isValid : Bool
  deriving DecidableEq, Repr

/-- The slice of `Replica` state used by `create3PCBatch` and
`consume_req_queue_for_pre_prepare` (`replica.py` lines 752-826) for one
ledger: the ledger's request-key queue, the node's finalised `requests`
map, the local clock `utc_epoch`, and the timestamp bookkeeping.
`ledger_ts` models `_get_last_timestamp_from_state`; the roots are the
values the node facade returns for this ledger. -/
structure BatchState where
  config_Max3PCBatchSize : Nat
  instId : Nat
  viewNo : Nat
  isMaster : Bool
  lastPrePrepareSeqNo : Nat
  last_accepted_pre_prepare_time : Option Nat
  ledger_ts : Option Nat
  utc_epoch : Nat
  requestQueue : List String
  requests : List (String × RequestRec)
  ledgerId : Nat
  stateRootHash : String
  txnRootHash : String
  deriving DecidableEq, Repr

/-- `replica.py` lines 413-418, `get_utc_epoch_for_preprepare`:
`tm = self.utc_epoch; if self.last_accepted_pre_prepare_time and
tm < self.last_accepted_pre_prepare_time: tm = it` — a `None` or `0`
last-accepted time is falsy. -/
def get_utc_epoch_for_preprepare (last_accepted : Option Nat)
    (utc : Nat) : Nat :=
  match last_accepted with
  | none => utc
  | some t => if t ≠ 0 ∧ utc < t then t else utc

/-- The `while` loop of `consume_req_queue_for_pre_prepare`
(`replica.py` lines 807-826): pop queue keys while fewer than
`Max3PCBatchSize` requests are collected, skip keys whose request was
removed from `requests`, classify the rest into valid and invalid
(in pop order), and return both lists with the remaining queue.  The
counter argument is `len(validReqs) + len(inValidReqs)`. -/
def consumeLoop (maxSize : Nat) (isMaster : Bool)
    (requests : List (String × RequestRec)) :
    List String → Nat → List RequestRec × List RequestRec × List String
  | [], _ => ([], [], [])
  | k :: rest, n =>
    if maxSize ≤ n then ([], [], k :: rest)
    else
      match alookup requests k with
      | none => consumeLoop maxSize isMaster requests rest n
      | some r =>
        let (v, i, q) := consumeLoop maxSize isMaster requests rest (n + 1)
        if isMaster ∧ r.isValid = false then (v, r :: i, q)
        else (r :: v, i, q)

/-- `replica.py` lines 726-727, `batchDigest`:
`sha256(b''.join(r.digest.encode() for r in reqs)).hexdigest()`,
parameterized by the hash function. -/
def batchDigest (sha256hex : String → String)
    (reqs : List RequestRec) : String :=
  sha256hex (String.join (reqs.map (fun r => r.digest)))

/-- `replica.py` lines 752-805, `create3PCBatch`: initialise
`last_accepted_pre_prepare_time` from the ledger timestamp when unset
(a zero timestamp is falsy), compute `tm`, drain the queue, and either
return `None` (no requests) or assemble the PRE-PREPARE with the valid
requests first, `discarded = len(validReqs)` and the batch digest over
all request digests, recording `lastPrePrepareSeqNo` and the new
accepted time.  The BLS `update_pre_prepare` and the `CREATE_PPR` hook
leave the ten fields unchanged (BLS and plugins are outside the spec's
scope). -/
def create3PCBatch (sha256hex : String → String) (st : BatchState) :
    Option PrePrepareMsg × BatchState :=
  let pp_seq_no := st.lastPrePrepareSeqNo + 1
  let last0 : Option Nat :=
    match st.last_accepted_pre_prepare_time with
    | some t => some t
    | none =>
      match st.ledger_ts with
      | some t => if t = 0 then none else some t
      | none => none
  let tm := get_utc_epoch_for_preprepare last0 st.utc_epoch
  let consumed :=
    consumeLoop st.config_Max3PCBatchSize st.isMaster st.requests
      st.requestQueue 0
  let validReqs := consumed.1
  let inValidReqs := consumed.2.1
  let restQueue := consumed.2.2
  let st1 := { st with
    last_accepted_pre_prepare_time := last0
    requestQueue := restQueue }
  if validReqs = [] ∧ inValidReqs = [] then (none, st1)
  else
    let reqs := validReqs ++ inValidReqs
    let pp : PrePrepareMsg :=
      { instId := st.instId
        viewNo := st.viewNo
        ppSeqNo := pp_seq_no
        ppTime := tm
        reqIdr := reqs.map (fun r => r.digest)
        discarded := validReqs.length
        digest := batchDigest sha256hex reqs
        ledgerId := st.ledgerId
        stateRootHash := st.stateRootHash
        txnRootHash := st.txnRootHash }
    (some pp,
     { st1 with
        lastPrePrepareSeqNo := pp_seq_no
        last_accepted_pre_prepare_time := some tm })

/-- One step of primary batching: the clock and queue contents at the
moment `create3PCBatch` runs. -/
structure BatchStep where
  utc : Nat
  queue : List String
  reqs : List (String × RequestRec)
  deriving DecidableEq, Repr

/-- Run `create3PCBatch` over a sequence of steps of one primary
replica, collecting the ppTime of each batch actually created. -/
def batchTimes (sha256hex : String → String) (st : BatchState) :
    List BatchStep → List Nat
  | [] => []
  | i :: rest =>
    let stI := { st with
      utc_epoch := i.utc
      requestQueue := i.queue
      requests := i.reqs }
    match create3PCBatch sha256hex stI with
    | (some pp, st2) => pp.ppTime :: batchTimes sha256hex st2 rest
    | (none, st2) => batchTimes sha256hex st2 rest

/-- A batch state holding three finalised requests, one invalid, with a
batch size limit of 2. -/
def batchSt0 : BatchState :=
  { config_Max3PCBatchSize := 2
    instId := 0
    viewNo := 0
    isMaster := true
    lastPrePrepareSeqNo := 0
    last_accepted_pre_prepare_time := some 1200
    ledger_ts := none
    utc_epoch := 1000
    requestQueue := ["kB", "kA", "kC"]
    requests := [("kA", { digest := "dA", isValid := true }),
                 ("kB", { digest := "dB", isValid := false }),
                 ("kC", { digest := "dC", isValid := true })]
    ledgerId := 1
    stateRootHash := "sr"
    txnRootHash := "tr" }

/-- The PRE-PREPARE that `create3PCBatch` builds from `batchSt0` with
the identity hash: the valid request "dA" precedes the invalid "dB",
one request is discarded, and the batch digest is the concatenation of
the two digests. -/
def ppB0 : PrePrepareMsg :=
  { instId := 0, viewNo := 0, ppSeqNo := 1, ppTime := 1200,
    reqIdr := ["dA", "dB"], discarded := 1, digest := "dAdB",
    ledgerId := 1, stateRootHash := "sr", txnRootHash := "tr" }

/-- The PP_CHECK_* statuses returned by `_can_process_pre_prepare`
(`replica.py`); a `none` result means no objection. -/
inductive PPCheck
  | PP_CHECK_NOT_FROM_PRIMARY
  | PP_CHECK_TO_PRIMARY
  | PP_CHECK_DUPLICATE
  | PP_CHECK_OLD
  | PP_CHECK_REQUEST_NOT_FINALIZED
  | PP_CHECK_NOT_NEXT
  | PP_CHECK_WRONG_TIME
  deriving DecidableEq, Repr

/-- The suspicion codes raised by `processPrePrepare`
(`plenum/server/suspicion_codes.py` names). -/
inductive Suspicion
  | PPR_FRM_NON_PRIMARY
  | PPR_TO_PRIMARY
  | DUPLICATE_PPR_SENT
  | PPR_TIME_WRONG
  deriving DecidableEq, Repr

/-- The slice of `Replica` state used by `processPrePrepare` and
`_can_process_pre_prepare` (`replica.py` lines 947-1024 and
1279-1326).  `primaryName` is the current `_primaryName`;
`primaryNames` maps each view to the primary replica name recorded for
it; `finalised` lists the request keys for which
`requests.is_finalised` holds. -/
structure PPState where
  name : String
  viewNo : Nat
  primaryName : Option String
  primaryNames : List (Nat × String)
  isParticipating : Bool
  prePrepares : List (Key3PC × PrePrepareMsg)
  sentPrePrepares : List (Key3PC × PrePrepareMsg)
  last_ordered_3pc : Key3PC
  finalised : List String
  last_accepted_pre_prepare_time : Option Nat
  utc_epoch : Nat
  config_ACCEPTABLE_DEVIATION_PREPREPARE_SECS : Nat
  requested_pre_prepares : List Key3PC
  pre_prepares_stashed_for_incorrect_time :
    List (Key3PC × (PrePrepareMsg × String × Bool))
  deriving DecidableEq, Repr

/-- `replica.py`, `isMsgForCurrentView`: the message's view equals the
replica's current view. -/
def isMsgForCurrentView (st : PPState) (msg : PrePrepareMsg) : Bool :=
  msg.viewNo == st.viewNo

/-- `replica.py` lines 440-448, the `isPrimary` property: whether this
replica is the primary, `None` while no primary is known. -/
def isPrimary (st : PPState) : Option Bool :=
  match st.primaryName with
  | none => none
  | some p => some (p == st.name)

/-- `replica.py` lines 606-612, `is_primary_in_view`: whether this
replica was primary in the given view. -/
def is_primary_in_view (st : PPState) (viewNo : Nat) : Bool :=
  match alookup st.primaryNames viewNo with
  | none => false
  | some p => p == st.name

/-- `replica.py` lines 622-631, `isPrimaryForMsg`. -/
def isPrimaryForMsg (st : PPState) (msg : PrePrepareMsg) :
    Option Bool :=
  if isMsgForCurrentView st msg then isPrimary st
  else some (is_primary_in_view st msg.viewNo)

/-- `replica.py` lines 633-645, `isMsgFromPrimary`: compare the sender
with the primary of the message's view (`None == sender` is false; a
missing view raises `KeyError`, caught and turned into false). -/
def isMsgFromPrimary (st : PPState) (msg : PrePrepareMsg)
    (sender : String) : Bool :=
  if isMsgForCurrentView st msg then
    match st.primaryName with
    | none => false
    | some p => p == sender
  else
    match alookup st.primaryNames msg.viewNo with
    | none => false
    | some p => p == sender

/-- The greatest-key entry of an association list under the
lexicographic 3PC order (`SortedDict.peekitem(-1)`). -/
def maxEntry (l : List (Key3PC × PrePrepareMsg)) :
    Option (Key3PC × PrePrepareMsg) :=
  l.foldl
    (fun best kv =>
      match best with
      | none => some kv
      | some b => if 0 < compare_3PC_keys b.1 kv.1 then some kv else some b)
    none

/-- `replica.py` lines 1468-1480, the `lastPrePrepare` property. -/
def lastPrePrepare (st : PPState) : Option PrePrepareMsg :=
  match maxEntry st.sentPrePrepares with
  | some (k, pp) =>
    (match maxEntry st.prePrepares with
     | some (k2, pp2) =>
       if 0 < compare_3PC_keys k k2 then some pp2 else some pp
     | none => some pp)
  | none =>
    match maxEntry st.prePrepares with
    | some (k2, pp2) =>
      if 0 < compare_3PC_keys ((0, 0) : Key3PC) k2 then some pp2 else none
    | none => none

/-- `replica.py` lines 1188-1198, the `__last_pp_3pc` property: the
maximum of the last PRE-PREPARE's key and `last_ordered_3pc`. -/
def last_pp_3pc (st : PPState) : Key3PC :=
  match lastPrePrepare st with
  | none => st.last_ordered_3pc
  | some pp =>
    if 0 < compare_3PC_keys st.last_ordered_3pc (pp.viewNo, pp.ppSeqNo)
    then (pp.viewNo, pp.ppSeqNo)
    else st.last_ordered_3pc

/-- `replica.py` lines 2405-2413, `is_pre_prepare_time_correct`. -/
def is_pre_prepare_time_correct (st : PPState) (pp : PrePrepareMsg) :
    Bool :=
  (match st.last_accepted_pre_prepare_time with
   | none => true
   | some t => decide (t ≤ pp.ppTime)) &&
  decide (((pp.ppTime : Int) - (st.utc_epoch : Int)).natAbs ≤
    st.config_ACCEPTABLE_DEVIATION_PREPREPARE_SECS)

/-- `replica.py` lines 2414-2433, `is_pre_prepare_time_acceptable`:
requested PRE-PREPAREs are always acceptable; an incorrect time is
overridden when the message was stashed for incorrect time and its
`done` flag was set by the PREPARE-quorum rescue. -/
def is_pre_prepare_time_acceptable (st : PPState)
    (pp : PrePrepareMsg) : Bool :=
  let key := (pp.viewNo, pp.ppSeqNo)
  if key ∈ st.requested_pre_prepares then true
  else
    let correct := is_pre_prepare_time_correct st pp
    if correct = false then
      match alookup st.pre_prepares_stashed_for_incorrect_time key with
      | some (_, _, true) => true
      | _ => false
    else correct

/-- `replica.py` lines 1162-1167, `nonFinalisedReqs`: the request keys
of the batch that are not yet finalised. -/
def nonFinalisedReqs (st : PPState) (reqKeys : List String) :
    List String :=
  reqKeys.filter (fun k => decide (k ∉ st.finalised))

/-- `replica.py` lines 1169-1186, `__is_next_pre_prepare`: the first
batch of the current view is always next; otherwise compare with
`__last_pp_3pc` (the `LogicError` raised when the view is ahead of the
replica's is surfaced as an exception; Nat truncation in
`pp_seq_no - last_pp_seq_no` agrees with the Python int test since only
`> 1` matters). -/
def is_next_pre_prepare (st : PPState) (view_no pp_seq_no : Nat) :
    Except PyErr Bool :=
  if view_no = st.viewNo ∧ pp_seq_no = 1 then .ok true
  else
    let last := last_pp_3pc st
    if view_no < last.1 then .ok false
    else if last.1 < view_no then
      if view_no ≠ st.viewNo then .error .valueError
      else if 1 < pp_seq_no - 0 then .ok false else .ok true
    else if 1 < pp_seq_no - last.2 then .ok false else .ok true

/-- `replica.py` lines 1279-1326, `_can_process_pre_prepare`: the chain
of eligibility checks, in source order.  The final BLS
`validate_pre_prepare` returns no objection in the default setup (BLS
is outside the spec's scope). -/
def _can_process_pre_prepare (st : PPState) (pp : PrePrepareMsg)
    (sender : String) : Except PyErr (Option PPCheck) :=
  if isMsgFromPrimary st pp sender = false then
    .ok (some .PP_CHECK_NOT_FROM_PRIMARY)
  else if isPrimaryForMsg st pp = some true then
    .ok (some .PP_CHECK_TO_PRIMARY)
  else if (alookup st.prePrepares (pp.viewNo, pp.ppSeqNo)).isSome then
    .ok (some .PP_CHECK_DUPLICATE)
  else if st.isParticipating = false then .ok none
  else if 0 < compare_3PC_keys (pp.viewNo, pp.ppSeqNo) (last_pp_3pc st)
  then .ok (some .PP_CHECK_OLD)
  else if nonFinalisedReqs st pp.reqIdr ≠ [] then
    .ok (some .PP_CHECK_REQUEST_NOT_FINALIZED)
  else if is_pre_prepare_time_acceptable st pp = false then
    .ok (some .PP_CHECK_WRONG_TIME)
  else
    match is_next_pre_prepare st pp.viewNo pp.ppSeqNo with
    | .error e => .error e
    | .ok false => .ok (some .PP_CHECK_NOT_NEXT)
    | .ok true => .ok none

/-- The control-flow outcome of `processPrePrepare` (`replica.py` lines
947-1024).  Only the `proceedValid` branch reaches
`_process_valid_preprepare`, the sole caller of `addToPrePrepares`
which stores the message into `prePrepares`; every other branch leaves
`prePrepares` unchanged. -/
inductive PPOutcome
  | suspicion (code : Suspicion) (sender : String)
  | proceedValid
  | ignoredOld
  | enqueuedNonFinalized
  | enqueuedPendingPrev
  | stashedWrongTime (sender : String)
  | raised (e : PyErr)
  deriving DecidableEq, Repr

/-- `replica.py` lines 947-1024, `processPrePrepare`:
map each `_can_process_pre_prepare` status onto the corresponding
action (`report_suspicious`, enqueue, or stash; the wrong-time branch
both stashes and reports `PPR_TIME_WRONG`). -/
def processPrePrepare (st : PPState) (pp : PrePrepareMsg)
    (sender : String) : PPOutcome :=
  match _can_process_pre_prepare st pp sender with
  | .error e => .raised e
  | .ok none => .proceedValid
  | .ok (some .PP_CHECK_NOT_FROM_PRIMARY) =>
    .suspicion .PPR_FRM_NON_PRIMARY sender
  | .ok (some .PP_CHECK_TO_PRIMARY) => .suspicion .PPR_TO_PRIMARY sender
  | .ok (some .PP_CHECK_DUPLICATE) =>
    .suspicion .DUPLICATE_PPR_SENT sender
  | .ok (some .PP_CHECK_OLD) => .ignoredOld
  | .ok (some .PP_CHECK_REQUEST_NOT_FINALIZED) => .enqueuedNonFinalized
  | .ok (some .PP_CHECK_NOT_NEXT) => .enqueuedPendingPrev
  | .ok (some .PP_CHECK_WRONG_TIME) => .stashedWrongTime sender

/-- The accepted PRE-PREPARE already held at key (0,1). -/
def ppHeld : PrePrepareMsg :=
  { instId := 0, viewNo := 0, ppSeqNo := 1, ppTime := 100,
    reqIdr := ["d1"], discarded := 1, digest := "bd1",
    ledgerId := 1, stateRootHash := "s1", txnRootHash := "t1" }

/-- A second PRE-PREPARE for the same key (0,1) with a different
digest. -/
def ppDup : PrePrepareMsg :=
  { instId := 0, viewNo := 0, ppSeqNo := 1, ppTime := 101,
    reqIdr := ["d2"], discarded := 1, digest := "bd2",
    ledgerId := 1, stateRootHash := "s2", txnRootHash := "t2" }

/-- A backup replica ("Beta:0") of view 0 whose primary is "Alpha:0"
and which already accepted `ppHeld` at (0,1). -/
def ppSt0 : PPState :=
  { name := "Beta:0"
    viewNo := 0
    primaryName := some "Alpha:0"
    primaryNames := [(0, "Alpha:0")]
    isParticipating := true
    prePrepares := [((0, 1), ppHeld)]
    sentPrePrepares := []
    last_ordered_3pc := (0, 0)
    finalised := ["d1", "d2"]
    last_accepted_pre_prepare_time := some 100
    utc_epoch := 100
    config_ACCEPTABLE_DEVIATION_PREPREPARE_SECS := 300
    requested_pre_prepares := []
    pre_prepares_stashed_for_incorrect_time := [] }

end Plenum

namespace Plenum

/-- `compare_3PC_keys a b` is non-negative exactly when `a` is
lexicographically at most `b`. -/
theorem compare_3PC_keys_nonneg_iff (a b : Key3PC) :
    0 ≤ compare_3PC_keys a b ↔ keyLe a b := by
  unfold compare_3PC_keys keyLe
  by_cases h : a.1 = b.1 <;> simp [h] <;> omega

/-- C8: For every node count N ≥ 1, the derived pool parameters satisfy
f = ⌊(N−1)/3⌋, requiredNumberOfInstances = f + 1 and
minimumNodes = 2f + 1. -/
theorem setPoolParams_spec (N : Nat) (hN : 1 ≤ N) :
    (setPoolParams N).f = (N - 1) / 3 ∧
    (setPoolParams N).requiredNumberOfInstances = (setPoolParams N).f + 1 ∧
    (setPoolParams N).minimumNodes = 2 * (setPoolParams N).f + 1 := by
  refine ⟨?_, rfl, rfl⟩
  unfold setPoolParams getMaxFailures
  by_cases h : 4 ≤ N
  · simp [h]
  · simp only [h, if_false]
    omega

/-- Witness for `setPoolParams_spec` at N = 7. -/
theorem setPoolParams_spec_witness :
    (setPoolParams 7).f = (7 - 1) / 3 ∧
    (setPoolParams 7).requiredNumberOfInstances = (setPoolParams 7).f + 1 ∧
    (setPoolParams 7).minimumNodes = 2 * (setPoolParams 7).f + 1 :=
  setPoolParams_spec 7 (by decide)

/-- C1 (code bug): with three identical votes for ("Alpha", info) and
quorum 3, `get_sufficient_same_view_change_done_messages` raises
`ValueError` while unpacking the single return value of
`mostCommonElement`, instead of returning the pair as the claim states;
it never returns a vote pair for any non-empty vote set. -/
theorem get_sufficient_same_view_change_done_messages_bug :
    get_sufficient_same_view_change_done_messages
      { view_change_done := vcVotes3
        accepted_view_change_done_message := none
        quorum := 3 } = .error .valueError ∧
    ∀ st : ViewChangerVC,
      st.accepted_view_change_done_message = none →
      st.view_change_done ≠ [] →
      ∀ p, get_sufficient_same_view_change_done_messages st ≠ .ok p := by
  constructor
  · rfl
  · intro st ha hv p
    unfold get_sufficient_same_view_change_done_messages
    rw [ha]
    match hd : st.view_change_done with
    | [] => exact absurd hd hv
    | kv :: rest =>
      simp only
      split
      · simp
      · split <;> simp

/-- C2 (code bug): with f = 1, two waiting PREPAREs for (0,4) sharing
ppTime 1500 (reaching the timestamp quorum f+1 = 2),
`_process_stashed_pre_prepare_for_time_if_possible` raises `TypeError`
while unpacking the single int returned by `mostCommonElement`, instead
of rescuing the stashed PRE-PREPARE and returning True as the claim
states; it raises whenever more than f PREPAREs are waiting. -/
theorem process_stashed_pre_prepare_for_time_bug :
    process_stashed_pre_prepare_for_time_if_possible
      { f := 1
        preparesWaitingForPrePrepare := [((0, 4), waitingPrepares2)]
        pre_prepares_stashed_for_incorrect_time :=
          [((0, 4), (stashedPP04, "Node1", false))] } (0, 4)
      = .error .typeError ∧
    ∀ (st : TimeRescueState) (key : Key3PC),
      st.f <
        ((alookup st.preparesWaitingForPrePrepare key).getD []).length →
      ∀ b, process_stashed_pre_prepare_for_time_if_possible st key ≠ .ok b := by
  constructor
  · rfl
  · intro st key hlen b
    unfold process_stashed_pre_prepare_for_time_if_possible
    simp only [hlen, if_pos]
    split <;> simp

/-- C5: After every assignment to the low watermark `h` the high
watermark equals `h + LOG_SIZE`, and every three-phase message whose
ppSeqNo is not strictly between `h` and `H` and that is neither already
stable nor already ordered is appended to the outside-watermarks stash
instead of being dispatched. -/
theorem watermarks_spec :
    (∀ (st : DispatchState) (n : Nat),
      (set_h st n).h = n ∧
      (set_h st n).H = (set_h st n).h + st.config_LOG_SIZE) ∧
    (∀ (st : DispatchState) (msg : ThreePhaseMsg) (sender : String),
      isPpSeqNoStable st msg.ppSeqNo = false →
      has_already_ordered st msg.viewNo msg.ppSeqNo = false →
      ¬ (st.h < msg.ppSeqNo ∧ msg.ppSeqNo ≤ st.H) →
      (dispatchThreePhaseMsg st msg sender).1 = .stashed ∧
      (msg, sender) ∈
        ((dispatchThreePhaseMsg st msg sender).2).stashingWhileOutsideWaterMarks) := by
  constructor
  · intro st n
    exact ⟨rfl, rfl⟩
  · intro st msg sender hstable hordered hout
    unfold dispatchThreePhaseMsg
    simp [hstable, hordered, isPpSeqNoBetweenWaterMarks, hout]

/-- Witness for `watermarks_spec`: a message at (0, 400) is outside the
(10, 310) watermark window of `wmSt0` and gets stashed. -/
theorem watermarks_spec_witness :
    (dispatchThreePhaseMsg wmSt0 wmMsg0 "Node2").1 =
      DispatchResult.stashed ∧
    (wmMsg0, "Node2") ∈
      ((dispatchThreePhaseMsg wmSt0 wmMsg0 "Node2").2).stashingWhileOutsideWaterMarks :=
  watermarks_spec.2 wmSt0 wmMsg0 "Node2" (by decide) (by decide)
    (by decide)

/-- C10: `has_already_ordered (v,s)` holds exactly when `(v,s)` is
lexicographically at most `last_ordered_3pc` — it depends only on
`last_ordered_3pc` and never on the `ordered` set — so
`dispatchThreePhaseMsg` discards as already ordered every (non-stable)
message whose key is at or below `last_ordered_3pc`, including keys
absent from the `ordered` set (for example keys skipped over when
catch-up advances `last_ordered_3pc`). -/
theorem has_already_ordered_spec :
    (∀ (st : DispatchState) (v s : Nat),
      has_already_ordered st v s = true ↔
        keyLe (v, s) st.last_ordered_3pc) ∧
    (∀ (st st' : DispatchState),
      st.last_ordered_3pc = st'.last_ordered_3pc →
      ∀ v s, has_already_ordered st v s = has_already_ordered st' v s) ∧
    (∀ (st : DispatchState) (msg : ThreePhaseMsg) (sender : String),
      isPpSeqNoStable st msg.ppSeqNo = false →
      keyLe (msg.viewNo, msg.ppSeqNo) st.last_ordered_3pc →
      (msg.viewNo, msg.ppSeqNo) ∉ st.ordered →
      (dispatchThreePhaseMsg st msg sender).1 = .discardedOrdered) := by
  refine ⟨?_, ?_, ?_⟩
  · intro st v s
    unfold has_already_ordered
    rw [decide_eq_true_eq]
    exact compare_3PC_keys_nonneg_iff (v, s) st.last_ordered_3pc
  · intro st st' hlast v s
    unfold has_already_ordered
    rw [hlast]
  · intro st msg sender hstable hle _hnotin
    unfold dispatchThreePhaseMsg
    have hord : has_already_ordered st msg.viewNo msg.ppSeqNo = true := by
      unfold has_already_ordered
      rw [decide_eq_true_eq]
      exact (compare_3PC_keys_nonneg_iff _ _).mpr hle
    simp [hstable, hord]

/-- Witness for `has_already_ordered_spec`: (0,7) is at or below
`wmSt0`'s `last_ordered_3pc` = (0,10), is not in its (empty) `ordered`
set, and is discarded as already ordered. -/
theorem has_already_ordered_spec_witness :
    (dispatchThreePhaseMsg wmSt0 wmMsg1 "Node3").1 =
      DispatchResult.discardedOrdered :=
  has_already_ordered_spec.2.2 wmSt0 wmMsg1 "Node3" (by decide)
    (by decide) (by decide)

/-- Updating a key and looking it up returns the written value. -/
theorem alookup_aset {α β : Type} [DecidableEq α]
    (l : List (α × β)) (k : α) (v : β) :
    alookup (aset l k v) k = some v := by
  induction l with
  | nil => simp [aset, alookup]
  | cons hd tl ih =>
    obtain ⟨k', v'⟩ := hd
    by_cases h : k' = k
    · simp [aset, alookup, h]
    · simp [aset, alookup, h, ih]

/-- C3: for a COMMIT at (v,s) with s > 1, `canOrder` answers true only
when the COMMIT quorum is reached, (v,s) is not at or below
`last_ordered_3pc`, and every lower key known to the replica (in the
scanned union of 3PC collections) is ordered — either member of
`ordered` or at or below `last_ordered_3pc`; and when the quorum is
reached but `all_prev_ordered` fails, the COMMIT is stashed at
`stashed_out_of_order_commits[v][s]` and the periodic rescan is
scheduled. -/
theorem canOrder_spec (st : OrderingState) (c : CommitMsg)
    (hs : 1 < c.ppSeqNo) :
    ((canOrder st c).1.1 = true →
      commitsHasQuorum st (c.viewNo, c.ppSeqNo) st.commitQuorum = true ∧
      has_already_ordered_ord st c.viewNo c.ppSeqNo = false ∧
      ∀ k ∈ toCheckKeys st, keyLt k (c.viewNo, c.ppSeqNo) →
        k ∈ st.ordered ∨ keyLe k st.last_ordered_3pc) ∧
    (commitsHasQuorum st (c.viewNo, c.ppSeqNo) st.commitQuorum = true →
      has_already_ordered_ord st c.viewNo c.ppSeqNo = false →
      all_prev_ordered st c = false →
      (canOrder st c).1.1 = false ∧
      alookup
        ((alookup ((canOrder st c).2.stashed_out_of_order_commits)
            c.viewNo).getD [])
        c.ppSeqNo = some c ∧
      (canOrder st c).2.scanScheduled = true) := by
  constructor
  · intro htrue
    have hq : commitsHasQuorum st (c.viewNo, c.ppSeqNo) st.commitQuorum
        = true := by
      by_contra h
      rw [Bool.not_eq_true] at h
      unfold canOrder at htrue
      simp [h] at htrue
    have hord : has_already_ordered_ord st c.viewNo c.ppSeqNo = false := by
      by_contra h
      rw [Bool.not_eq_false] at h
      unfold canOrder at htrue
      simp [hq, h] at htrue
    refine ⟨hq, hord, ?_⟩
    have hall : all_prev_ordered st c = true := by
      by_contra h
      rw [Bool.not_eq_true] at h
      unfold canOrder at htrue
      simp [hq, hord, h, hs] at htrue
    intro k hk hklt
    unfold all_prev_ordered at hall
    by_cases heq :
        ((st.last_ordered_3pc.1 : Int), (st.last_ordered_3pc.2 : Int)) =
          ((c.viewNo : Int), (c.ppSeqNo : Int) - 1)
    · right
      have h1 : (st.last_ordered_3pc.1 : Int) = (c.viewNo : Int) :=
        congrArg Prod.fst heq
      have h2 : (st.last_ordered_3pc.2 : Int) = (c.ppSeqNo : Int) - 1 :=
        congrArg Prod.snd heq
      unfold keyLe
      unfold keyLt at hklt
      rcases hklt with hlt | ⟨heqv, hlt⟩
      · left; omega
      · right; omega
    · rw [if_neg heq] at hall
      by_cases hany : (toCheckKeys st).any (fun k =>
          (decide (k.1 < c.viewNo) ||
            (decide (k.1 = c.viewNo) && decide (k.2 < c.ppSeqNo))) &&
          decide (k ∉ st.ordered)) = true
      · rw [if_pos hany] at hall
        exact absurd hall (by simp)
      · left
        by_contra hkord
        apply hany
        rw [List.any_eq_true]
        refine ⟨k, hk, ?_⟩
        unfold keyLt at hklt
        simp only [Bool.and_eq_true, Bool.or_eq_true, decide_eq_true_eq]
        refine ⟨?_, hkord⟩
        rcases hklt with hlt | ⟨heqv, hlt⟩
        · left; exact hlt
        · right; exact ⟨by simp [heqv], by simp [hlt]⟩
  · intro hq hord hall
    have hcond : 1 < c.ppSeqNo ∧ all_prev_ordered st c = false := ⟨hs, hall⟩
    unfold canOrder
    rw [hq]
    simp only [Bool.true_eq_false, if_false, hord, Bool.false_eq_true,
      if_pos hcond]
    refine ⟨by trivial, ?_, by trivial⟩
    unfold stashOutOfOrderCommit
    rw [alookup_aset]
    simp [alookup_aset]

/-- Witness for `canOrder_spec`: in `ordSt0` the COMMIT for (0,2) has a
quorum, is not yet ordered, and every lower known key is ordered. -/
theorem canOrder_spec_witness :
    commitsHasQuorum ordSt0 (ordC0.viewNo, ordC0.ppSeqNo)
      ordSt0.commitQuorum = true ∧
    has_already_ordered_ord ordSt0 ordC0.viewNo ordC0.ppSeqNo = false ∧
    (∀ k ∈ toCheckKeys ordSt0, keyLt k (ordC0.viewNo, ordC0.ppSeqNo) →
      k ∈ ordSt0.ordered ∨ keyLe k ordSt0.last_ordered_3pc) :=
  (canOrder_spec ordSt0 ordC0 (by decide)).1 (by decide)

/-- A successful association lookup yields a member pair. -/
theorem alookup_mem {α β : Type} [DecidableEq α]
    {l : List (α × β)} {k : α} {v : β} (h : alookup l k = some v) :
    (k, v) ∈ l := by
  induction l with
  | nil => simp [alookup] at h
  | cons hd tl ih =>
    obtain ⟨k', v'⟩ := hd
    unfold alookup at h
    by_cases hk : k' = k
    · rw [if_pos hk] at h
      cases hk
      cases Option.some.inj h
      exact List.mem_cons_self _ _
    · rw [if_neg hk] at h
      exact List.mem_cons_of_mem _ (ih h)

/-- `splitAtFirst` decomposes the list around the found element, which
satisfies the predicate. -/
theorem splitAtFirst_eq {α : Type} {p : α → Bool} :
    ∀ {l pre post : List α} {x : α},
      splitAtFirst p l = some (pre, x, post) →
      l = pre ++ x :: post ∧ p x = true := by
  intro l
  induction l with
  | nil => intro pre post x h; simp [splitAtFirst] at h
  | cons hd tl ih =>
    intro pre post x h
    unfold splitAtFirst at h
    by_cases hp : p hd
    · rw [if_pos hp] at h
      simp only [Option.some.injEq, Prod.mk.injEq] at h
      obtain ⟨rfl, rfl, rfl⟩ := h
      exact ⟨rfl, hp⟩
    · rw [if_neg hp] at h
      cases hsp : splitAtFirst p tl with
      | none => rw [hsp] at h; cases h
      | some tr =>
        obtain ⟨pre', x', post'⟩ := tr
        rw [hsp] at h
        simp only [Option.some.injEq, Prod.mk.injEq] at h
        obtain ⟨rfl, rfl, rfl⟩ := h
        obtain ⟨he, hx⟩ := ih hsp
        exact ⟨by rw [he]; rfl, hx⟩

/-- `splitAtFirst` succeeds when some element satisfies the predicate. -/
theorem splitAtFirst_ne_none {α : Type} {p : α → Bool} :
    ∀ {l : List α}, (∃ x ∈ l, p x = true) → splitAtFirst p l ≠ none := by
  intro l
  induction l with
  | nil =>
    rintro ⟨x, hx, _⟩
    simp at hx
  | cons hd tl ih =>
    rintro ⟨x, hx, hpx⟩
    unfold splitAtFirst
    by_cases hp : p hd
    · simp [hp]
    · rw [if_neg hp]
      rcases List.mem_cons.mp hx with rfl | hx'
      · exact absurd hpx hp
      · have hne := ih ⟨x, hx', hpx⟩
        cases hsp : splitAtFirst p tl with
        | none => exact absurd hsp hne
        | some tr => simp [hsp]

/-- `compare_3PC_keys a b` is non-positive exactly when `b` is
lexicographically at most `a`. -/
theorem compare_3PC_keys_nonpos_iff (a b : Key3PC) :
    compare_3PC_keys a b ≤ 0 ↔ keyLe b a := by
  unfold compare_3PC_keys keyLe
  by_cases h : a.1 = b.1
  · simp [h]
  · have h2 : ¬ b.1 = a.1 := fun he => h he.symm
    simp [h, h2]
    omega

/-- Looking up a dropped key yields nothing. -/
theorem alookup_removeKeys {β : Type} (l : List (Key3PC × β))
    (ks : List Key3PC) (k : Key3PC) (hk : k ∈ ks) :
    alookup (removeKeys l ks) k = none := by
  induction l with
  | nil => rfl
  | cons hd tl ih =>
    obtain ⟨k1, v1⟩ := hd
    unfold removeKeys at ih ⊢
    rw [List.filter_cons]
    by_cases h : k1 ∈ ks
    · have hdec : decide ((k1, v1).1 ∉ ks) = false := by simp [h]
      rw [hdec]
      exact ih
    · have hne : ¬ (k1 = k) := fun he => h (he ▸ hk)
      have hdec : decide ((k1, v1).1 ∉ ks) = true := by simp [h]
      rw [hdec]
      simp only [if_true]
      unfold alookup
      rw [if_neg hne]
      exact ih

/-- Keys at or below `till` holding a sent or received PRE-PREPARE are
collected by `_gc`. -/
theorem mem_gcKeys (st : GcState) (till : Key3PC) (k : Key3PC)
    (pp : PrePrepareMsg)
    (hmem : (k, pp) ∈ st.sentPrePrepares ∨ (k, pp) ∈ st.prePrepares)
    (hle : keyLe k till) :
    k ∈ gcKeys st till := by
  unfold gcKeys
  rw [List.mem_dedup, List.mem_append]
  have hc : decide (compare_3PC_keys till k ≤ 0) = true := by
    rw [decide_eq_true_eq]
    exact (compare_3PC_keys_nonpos_iff till k).mpr hle
  rcases hmem with hmem | hmem
  · left
    rw [List.mem_map]
    exact ⟨(k, pp), List.mem_filter.mpr ⟨hmem, hc⟩, rfl⟩
  · right
    rw [List.mem_map]
    exact ⟨(k, pp), List.mem_filter.mpr ⟨hmem, hc⟩, rfl⟩

/-- Request keys of a collected PRE-PREPARE appear in the freed set. -/
theorem mem_gcReqKeys (st : GcState) (till : Key3PC) (k : Key3PC)
    (pp : PrePrepareMsg)
    (hmem : (k, pp) ∈ st.sentPrePrepares ∨ (k, pp) ∈ st.prePrepares)
    (hle : keyLe k till) (d : String) (hd : d ∈ pp.reqIdr) :
    d ∈ gcReqKeys st till := by
  unfold gcReqKeys
  rw [List.mem_dedup, List.mem_append]
  have hc : decide (compare_3PC_keys till k ≤ 0) = true := by
    rw [decide_eq_true_eq]
    exact (compare_3PC_keys_nonpos_iff till k).mpr hle
  rcases hmem with hmem | hmem
  · left
    rw [List.mem_flatten]
    refine ⟨pp.reqIdr, ?_, hd⟩
    rw [List.mem_map]
    exact ⟨(k, pp), List.mem_filter.mpr ⟨hmem, hc⟩, rfl⟩
  · right
    rw [List.mem_flatten]
    refine ⟨pp.reqIdr, ?_, hd⟩
    rw [List.mem_map]
    exact ⟨(k, pp), List.mem_filter.mpr ⟨hmem, hc⟩, rfl⟩

/-- C4 (amended claim): when the received digests for checkpoint
interval (s0, E) reach the stability quorum, `checkIfCheckpointStable`
returns true, the checkpoint is marked stable at its end E, the low
watermark rises to E (and H to E + LOG_SIZE), all earlier checkpoint
intervals are removed, and for every key at or below (currentView, E)
that holds a sent or received PRE-PREPARE, the PRE-PREPARE, PREPARE,
COMMIT and batch entries at that key are garbage-collected and the
PRE-PREPARE's request keys are freed.  (Entries of the PREPARE, COMMIT
and batch collections at keys holding no PRE-PREPARE are NOT collected;
see the counterexample.) -/
theorem checkpoint_stable_gc_spec (st : GcState) (s0 E : Nat)
    (ck : CheckpointState)
    (hck : alookup st.checkpoints (s0, E) = some ck)
    (hq : st.checkpointQuorum ≤ ck.receivedDigests.length)
    (hseq : ck.seqNo = E)
    (hsorted : st.checkpoints.Pairwise (fun a b => a.1.2 < b.1.2)) :
    (checkIfCheckpointStable st (s0, E)).1 = true ∧
    ((checkIfCheckpointStable st (s0, E)).2).h = E ∧
    ((checkIfCheckpointStable st (s0, E)).2).H =
      E + st.config_LOG_SIZE ∧
    (∃ s1 ck1 rest,
      ((checkIfCheckpointStable st (s0, E)).2).checkpoints =
        ((s1, E), ck1) :: rest ∧ ck1.isStable = true) ∧
    (∀ kv ∈ ((checkIfCheckpointStable st (s0, E)).2).checkpoints,
      E ≤ kv.1.2) ∧
    (∀ k : Key3PC, keyLe k (st.viewNo, E) →
      ((∃ pp, (k, pp) ∈ st.sentPrePrepares) ∨
       (∃ pp, (k, pp) ∈ st.prePrepares)) →
      alookup ((checkIfCheckpointStable st (s0, E)).2).sentPrePrepares k
          = none ∧
      alookup ((checkIfCheckpointStable st (s0, E)).2).prePrepares k
          = none ∧
      alookup ((checkIfCheckpointStable st (s0, E)).2).prepares k
          = none ∧
      alookup ((checkIfCheckpointStable st (s0, E)).2).commits k
          = none ∧
      alookup ((checkIfCheckpointStable st (s0, E)).2).batches k
          = none) ∧
    (∀ (k : Key3PC) (pp : PrePrepareMsg), keyLe k (st.viewNo, E) →
      ((k, pp) ∈ st.sentPrePrepares ∨ (k, pp) ∈ st.prePrepares) →
      ∀ d ∈ pp.reqIdr,
        d ∈ ((checkIfCheckpointStable st (s0, E)).2).freedReqKeys) := by
  have hex : ∃ x ∈ st.checkpoints,
      (fun sc : (Nat × Nat) × CheckpointState =>
        decide (sc.1.2 = E)) x = true :=
    ⟨((s0, E), ck), alookup_mem hck, by simp⟩
  cases hsp : splitAtFirst
      (fun sc : (Nat × Nat) × CheckpointState => decide (sc.1.2 = E))
      st.checkpoints with
  | none => exact absurd hsp (splitAtFirst_ne_none hex)
  | some tr =>
    obtain ⟨pre, hit, post⟩ := tr
    obtain ⟨⟨s1, e1⟩, ck1⟩ := hit
    obtain ⟨hl, hp⟩ := splitAtFirst_eq hsp
    have he1 : e1 = E := by simpa using hp
    rw [he1] at hsp hl
    have hres : checkIfCheckpointStable st (s0, E) =
        (true, markCheckPointStable st E) := by
      simp [checkIfCheckpointStable, hck, hseq, hq]
    have hmark : markCheckPointStable st E =
        { _gc (_remove_stashed_checkpoints
            (gcSet_h
              { st with checkpoints :=
                  ((s1, E), { ck1 with isStable := true }) :: post }
              E)
            (st.viewNo, E)) (st.viewNo, E)
          with processedStashedForNewWaterMarks := true } := by
      unfold markCheckPointStable
      rw [hsp]
    rw [hres, hmark]
    refine ⟨rfl, ?_, ?_, ?_, ?_, ?_, ?_⟩
    · simp [_gc, compact_ordered, _remove_stashed_checkpoints, gcSet_h]
    · simp [_gc, compact_ordered, _remove_stashed_checkpoints, gcSet_h]
    · refine ⟨s1, { ck1 with isStable := true }, post, ?_, rfl⟩
      simp [_gc, compact_ordered, _remove_stashed_checkpoints, gcSet_h]
    · intro kv hkv
      have hkv' : kv ∈ ((s1, E), { ck1 with isStable := true }) :: post := by
        simpa [_gc, compact_ordered, _remove_stashed_checkpoints,
          gcSet_h] using hkv
      rcases List.mem_cons.mp hkv' with rfl | hpost
      · exact Nat.le_refl E
      · have hpair := hl ▸ hsorted
        have h2 := (List.pairwise_append.mp hpair).2.1
        have h3 := (List.pairwise_cons.mp h2).1 kv hpost
        exact Nat.le_of_lt h3
    · intro k hkle hkpp
      have hkin : k ∈ gcKeys st (st.viewNo, E) := by
        rcases hkpp with ⟨pp, hpp⟩ | ⟨pp, hpp⟩
        · exact mem_gcKeys st (st.viewNo, E) k pp (Or.inl hpp) hkle
        · exact mem_gcKeys st (st.viewNo, E) k pp (Or.inr hpp) hkle
      refine ⟨?_, ?_, ?_, ?_, ?_⟩ <;>
        exact alookup_removeKeys _ _ _ hkin
    · intro k pp hkle hmem d hd
      have hdin : d ∈ gcReqKeys st (st.viewNo, E) :=
        mem_gcReqKeys st (st.viewNo, E) k pp hmem hkle d hd
      have : ((_gc (_remove_stashed_checkpoints
          (gcSet_h
            { st with checkpoints :=
                ((s1, E), { ck1 with isStable := true }) :: post }
            E)
          (st.viewNo, E)) (st.viewNo, E))).freedReqKeys =
          st.freedReqKeys ++ gcReqKeys st (st.viewNo, E) := rfl
      rw [this]
      exact List.mem_append_right _ hdin

/-- C4 counterexample: in `cexGcSt` the checkpoint (1,5) reaches the
stability quorum and is marked stable with h = 5, yet the COMMIT entry
at key (0,1) — at or below (currentView, 5) but holding no stored
PRE-PREPARE — survives the garbage collection, refuting the claim that
every stored COMMIT entry at or below (currentView, E) is collected. -/
theorem checkpoint_gc_counterexample :
    (checkIfCheckpointStable cexGcSt (1, 5)).1 = true ∧
    ((checkIfCheckpointStable cexGcSt (1, 5)).2).h = 5 ∧
    keyLe (0, 1) (cexGcSt.viewNo, 5) ∧
    alookup ((checkIfCheckpointStable cexGcSt (1, 5)).2).commits (0, 1) =
      some ["N1", "N2", "N3"] := by
  exact ⟨by decide, by decide, by decide, by decide⟩

/-- Witness for `checkpoint_stable_gc_spec` at the concrete state
`gcStW`. -/
theorem checkpoint_stable_gc_spec_witness :
    (checkIfCheckpointStable gcStW (1, 5)).1 = true ∧
    ((checkIfCheckpointStable gcStW (1, 5)).2).h = 5 :=
  ⟨(checkpoint_stable_gc_spec gcStW 1 5 ckW rfl (by decide) rfl
      (by decide)).1,
   (checkpoint_stable_gc_spec gcStW 1 5 ckW rfl (by decide) rfl
      (by decide)).2.1⟩

/-- The consume loop collects at most `maxSize - n` requests. -/
theorem consumeLoop_length (maxSize : Nat) (isMaster : Bool)
    (requests : List (String × RequestRec)) :
    ∀ (q : List String) (n : Nat),
      (consumeLoop maxSize isMaster requests q n).1.length +
        (consumeLoop maxSize isMaster requests q n).2.1.length ≤
        maxSize - n := by
  intro q
  induction q with
  | nil => intro n; simp [consumeLoop]
  | cons k rest ih =>
    intro n
    unfold consumeLoop
    by_cases h : maxSize ≤ n
    · simp [h]
    · rw [if_neg h]
      cases hl : alookup requests k with
      | none =>
        simp only
        exact ih n
      | some r =>
        simp only
        rcases hres : consumeLoop maxSize isMaster requests rest (n + 1)
          with ⟨v, i, q2⟩
        have hc := ih (n + 1)
        rw [hres] at hc
        simp only at hc
        by_cases hv : isMaster = true ∧ r.isValid = false
        · simp only [if_pos hv, List.length_cons]
          omega
        · simp only [if_neg hv, List.length_cons]
          omega

/-- The consume loop puts dynamically valid requests in the first list
and invalid ones in the second (`processReqDuringBatch`). -/
theorem consumeLoop_classify (maxSize : Nat) (isMaster : Bool)
    (requests : List (String × RequestRec)) :
    ∀ (q : List String) (n : Nat),
      (∀ r ∈ (consumeLoop maxSize isMaster requests q n).1,
        isMaster = true → r.isValid = true) ∧
      (∀ r ∈ (consumeLoop maxSize isMaster requests q n).2.1,
        isMaster = true ∧ r.isValid = false) := by
  intro q
  induction q with
  | nil => intro n; simp [consumeLoop]
  | cons k rest ih =>
    intro n
    unfold consumeLoop
    by_cases h : maxSize ≤ n
    · simp [h]
    · rw [if_neg h]
      cases hl : alookup requests k with
      | none =>
        simp only
        exact ih n
      | some r =>
        simp only
        rcases hres : consumeLoop maxSize isMaster requests rest (n + 1)
          with ⟨v, i, q2⟩
        have hc := ih (n + 1)
        rw [hres] at hc
        simp only at hc
        by_cases hv : isMaster = true ∧ r.isValid = false
        · simp only [if_pos hv]
          refine ⟨hc.1, ?_⟩
          intro r' hr'
          rcases List.mem_cons.mp hr' with rfl | hr'
          · exact hv
          · exact hc.2 r' hr'
        · simp only [if_neg hv]
          refine ⟨?_, hc.2⟩
          intro r' hr'
          rcases List.mem_cons.mp hr' with rfl | hr'
          · intro hm
            by_contra hval
            exact hv ⟨hm, Bool.not_eq_true _ ▸ hval⟩
          · exact hc.1 r' hr'

/-- C6: every PRE-PREPARE produced by `create3PCBatch` holds at most
`Max3PCBatchSize` request digests, lists the digests of the valid
requests before those of the invalid ones, records the number of valid
requests as `discarded`, and carries the batch digest — the hash of the
concatenation of the per-request digests in that order. -/
theorem create3PCBatch_spec (sha256hex : String → String)
    (st : BatchState) (pp : PrePrepareMsg)
    (hpp : (create3PCBatch sha256hex st).1 = some pp) :
    pp.reqIdr.length ≤ st.config_Max3PCBatchSize ∧
    (∃ validReqs inValidReqs : List RequestRec,
      pp.reqIdr = validReqs.map (fun r => r.digest) ++
        inValidReqs.map (fun r => r.digest) ∧
      pp.discarded = validReqs.length ∧
      (∀ r ∈ validReqs, st.isMaster = true → r.isValid = true) ∧
      (∀ r ∈ inValidReqs, st.isMaster = true ∧ r.isValid = false)) ∧
    pp.digest = sha256hex (String.join pp.reqIdr) := by
  simp only [create3PCBatch] at hpp
  split at hpp
  · cases hpp
  · rw [Option.some.injEq] at hpp
    subst hpp
    have hlen := consumeLoop_length st.config_Max3PCBatchSize st.isMaster
      st.requests st.requestQueue 0
    have hcls := consumeLoop_classify st.config_Max3PCBatchSize st.isMaster
      st.requests st.requestQueue 0
    refine ⟨?_, ?_, ?_⟩
    · simp only [List.map_append, List.length_append, List.length_map,
        List.map_map]
      simp only [Nat.sub_zero] at hlen
      simpa using hlen
    · refine ⟨(consumeLoop st.config_Max3PCBatchSize st.isMaster
          st.requests st.requestQueue 0).1,
        (consumeLoop st.config_Max3PCBatchSize st.isMaster
          st.requests st.requestQueue 0).2.1, ?_, rfl, hcls.1, hcls.2⟩
      simp [List.map_append]
    · simp [batchDigest]

/-- Witness for `create3PCBatch_spec`: `batchSt0` with the identity
hash produces `ppB0`. -/
theorem create3PCBatch_spec_witness :
    ppB0.reqIdr.length ≤ batchSt0.config_Max3PCBatchSize ∧
    (∃ validReqs inValidReqs : List RequestRec,
      ppB0.reqIdr = validReqs.map (fun r => r.digest) ++
        inValidReqs.map (fun r => r.digest) ∧
      ppB0.discarded = validReqs.length ∧
      (∀ r ∈ validReqs, batchSt0.isMaster = true → r.isValid = true) ∧
      (∀ r ∈ inValidReqs, batchSt0.isMaster = true ∧ r.isValid = false)) ∧
    ppB0.digest = id (String.join ppB0.reqIdr) :=
  create3PCBatch_spec id batchSt0 ppB0 (by decide)

/-- When a last accepted PRE-PREPARE time is recorded, the produced
batch is stamped `max(utc_epoch, lastAcceptedPpTime)`. -/
theorem create3PCBatch_ppTime_eq (sha256hex : String → String)
    (st : BatchState) (t : Nat)
    (hlast : st.last_accepted_pre_prepare_time = some t)
    (pp : PrePrepareMsg)
    (hpp : (create3PCBatch sha256hex st).1 = some pp) :
    pp.ppTime = max st.utc_epoch t := by
  simp only [create3PCBatch, hlast] at hpp
  split at hpp
  · cases hpp
  · rw [Option.some.injEq] at hpp
    subst hpp
    simp only [get_utc_epoch_for_preprepare]
    rcases Nat.eq_zero_or_pos t with rfl | hpos
    · simp
    · have ht : t ≠ 0 := Nat.pos_iff_ne_zero.mp hpos
      by_cases hlt : st.utc_epoch < t
      · rw [if_pos ⟨ht, hlt⟩, Nat.max_def, if_pos (Nat.le_of_lt hlt)]
      · rw [if_neg (fun hc => hlt hc.2),
          (Nat.max_eq_left (Nat.le_of_not_lt hlt))]

/-- After a produced batch the recorded last accepted time is the
batch's ppTime. -/
theorem create3PCBatch_produced_last (sha256hex : String → String)
    (st : BatchState) (pp : PrePrepareMsg)
    (hpp : (create3PCBatch sha256hex st).1 = some pp) :
    ((create3PCBatch sha256hex st).2).last_accepted_pre_prepare_time =
      some pp.ppTime := by
  simp only [create3PCBatch] at hpp ⊢
  by_cases hemp : (consumeLoop st.config_Max3PCBatchSize st.isMaster
      st.requests st.requestQueue 0).1 = [] ∧
      (consumeLoop st.config_Max3PCBatchSize st.isMaster
        st.requests st.requestQueue 0).2.1 = []
  · rw [if_pos hemp] at hpp
    cases hpp
  · rw [if_neg hemp] at hpp ⊢
    rw [Option.some.injEq] at hpp
    subst hpp
    rfl

/-- A recorded last accepted time never decreases across a
`create3PCBatch` call, and equals the ppTime of a produced batch. -/
theorem create3PCBatch_next_last (sha256hex : String → String)
    (st : BatchState) (t : Nat)
    (hlast : st.last_accepted_pre_prepare_time = some t) :
    ∃ t2,
      ((create3PCBatch sha256hex st).2).last_accepted_pre_prepare_time =
        some t2 ∧ t ≤ t2 ∧
      ∀ pp, (create3PCBatch sha256hex st).1 = some pp →
        pp.ppTime = t2 := by
  have hget : t ≤ get_utc_epoch_for_preprepare (some t) st.utc_epoch := by
    simp only [get_utc_epoch_for_preprepare]
    by_cases h : t ≠ 0 ∧ st.utc_epoch < t
    · rw [if_pos h]
    · rw [if_neg h]
      omega
  simp only [create3PCBatch, hlast]
  by_cases hemp : (consumeLoop st.config_Max3PCBatchSize st.isMaster
      st.requests st.requestQueue 0).1 = [] ∧
      (consumeLoop st.config_Max3PCBatchSize st.isMaster
        st.requests st.requestQueue 0).2.1 = []
  · rw [if_pos hemp]
    exact ⟨t, rfl, Nat.le_refl t, fun pp hpp => by cases hpp⟩
  · rw [if_neg hemp]
    refine ⟨get_utc_epoch_for_preprepare (some t) st.utc_epoch, rfl,
      hget, ?_⟩
    intro pp hpp
    rw [Option.some.injEq] at hpp
    subst hpp
    rfl

/-- Every batch time produced from a state with a recorded last
accepted time is at least that time. -/
theorem batchTimes_lower_bound (sha256hex : String → String) :
    ∀ (steps : List BatchStep) (st : BatchState) (t : Nat),
      st.last_accepted_pre_prepare_time = some t →
      ∀ x ∈ batchTimes sha256hex st steps, t ≤ x := by
  intro steps
  induction steps with
  | nil =>
    intro st t _ x hx
    simp [batchTimes] at hx
  | cons i rest ih =>
    intro st t hlast x hx
    simp only [batchTimes] at hx
    rcases hcr : create3PCBatch sha256hex
        ({ st with utc_epoch := i.utc, requestQueue := i.queue, requests := i.reqs }) with ⟨o, st2⟩
    rw [hcr] at hx
    have hlastI : ({ st with utc_epoch := i.utc, requestQueue := i.queue, requests := i.reqs } : BatchState).last_accepted_pre_prepare_time = some t := hlast
    obtain ⟨t2, h2last, h2le, h2pp⟩ :=
      create3PCBatch_next_last sha256hex _ t hlastI
    rw [hcr] at h2last
    cases o with
    | none =>
      simp only at hx
      exact Nat.le_trans h2le (ih st2 t2 h2last x hx)
    | some pp =>
      simp only at hx
      rcases List.mem_cons.mp hx with rfl | hx'
      · have hppv := h2pp pp (by rw [hcr])
        rw [hppv]
        exact h2le
      · exact Nat.le_trans h2le (ih st2 t2 h2last x hx')

/-- The batch times of one primary are non-decreasing. -/
theorem batchTimes_chain (sha256hex : String → String) :
    ∀ (steps : List BatchStep) (st : BatchState),
      List.Chain' (· ≤ ·) (batchTimes sha256hex st steps) := by
  intro steps
  induction steps with
  | nil => intro st; simp [batchTimes]
  | cons i rest ih =>
    intro st
    simp only [batchTimes]
    rcases hcr : create3PCBatch sha256hex
        ({ st with utc_epoch := i.utc, requestQueue := i.queue, requests := i.reqs }) with ⟨o, st2⟩
    cases o with
    | none => exact ih st2
    | some pp =>
      rw [List.chain'_cons']
      constructor
      · intro b hb
        have hlast2 : st2.last_accepted_pre_prepare_time =
            some pp.ppTime := by
          have := create3PCBatch_produced_last sha256hex
            ({ st with utc_epoch := i.utc, requestQueue := i.queue, requests := i.reqs }) pp (by rw [hcr])
          rw [hcr] at this
          exact this
        exact batchTimes_lower_bound sha256hex rest st2 pp.ppTime
          hlast2 b (List.mem_of_mem_head? hb)
      · exact ih st2

/-- C7: the ppTime of a batch created by the primary equals
`max(localUtcNow, lastAcceptedPpTime)`, and consequently the ppTime
values of the batches created by one primary replica are non-decreasing
in creation order. -/
theorem ppTime_monotone_spec (sha256hex : String → String) :
    (∀ (st : BatchState) (t : Nat) (pp : PrePrepareMsg),
      st.last_accepted_pre_prepare_time = some t →
      (create3PCBatch sha256hex st).1 = some pp →
      pp.ppTime = max st.utc_epoch t) ∧
    (∀ (st : BatchState) (steps : List BatchStep),
      List.Chain' (· ≤ ·) (batchTimes sha256hex st steps)) :=
  ⟨fun st t pp hlast hpp =>
    create3PCBatch_ppTime_eq sha256hex st t hlast pp hpp,
   fun st steps => batchTimes_chain sha256hex steps st⟩

/-- Witness for `ppTime_monotone_spec`: `batchSt0` (clock 1000, last
accepted time 1200) stamps `ppB0` with max(1000, 1200) = 1200. -/
theorem ppTime_monotone_spec_witness :
    ppB0.ppTime = max batchSt0.utc_epoch 1200 ∧
    List.Chain' (· ≤ ·) (batchTimes id batchSt0 []) :=
  ⟨(ppTime_monotone_spec id).1 batchSt0 1200 ppB0 rfl (by decide),
   (ppTime_monotone_spec id).2 batchSt0 []⟩

/-- C9: when a replica already holds an accepted PRE-PREPARE for a 3PC
key, processing another PRE-PREPARE with that key (from the primary of
its view, by a replica that is not that primary) raises the
DUPLICATE_PPR_SENT suspicion against the sender and does not proceed to
the accepting branch, so at most one PRE-PREPARE is ever accepted per
3PC key. -/
theorem duplicate_pre_prepare_spec (st : PPState)
    (pp pp0 : PrePrepareMsg) (sender : String)
    (hdup : alookup st.prePrepares (pp.viewNo, pp.ppSeqNo) = some pp0)
    (hfrom : isMsgFromPrimary st pp sender = true)
    (hto : isPrimaryForMsg st pp ≠ some true) :
    processPrePrepare st pp sender =
      PPOutcome.suspicion .DUPLICATE_PPR_SENT sender ∧
    processPrePrepare st pp sender ≠ PPOutcome.proceedValid := by
  have hcan : _can_process_pre_prepare st pp sender =
      .ok (some .PP_CHECK_DUPLICATE) := by
    unfold _can_process_pre_prepare
    rw [if_neg (by rw [hfrom]; simp), if_neg hto,
      if_pos (by rw [hdup]; rfl)]
  unfold processPrePrepare
  rw [hcan]
  exact ⟨rfl, by simp⟩

/-- Witness for `duplicate_pre_prepare_spec`: the backup `ppSt0`
already holds `ppHeld` at (0,1) and rejects `ppDup` from its primary
"Alpha:0" with DUPLICATE_PPR_SENT. -/
theorem duplicate_pre_prepare_spec_witness :
    processPrePrepare ppSt0 ppDup "Alpha:0" =
      PPOutcome.suspicion .DUPLICATE_PPR_SENT "Alpha:0" ∧
    processPrePrepare ppSt0 ppDup "Alpha:0" ≠ PPOutcome.proceedValid :=
  duplicate_pre_prepare_spec ppSt0 ppDup ppHeld "Alpha:0" (by decide)
    (by decide) (by decide)

end Plenum
